import Mathlib

/-!
Shallow embedding of the finetuning tutorial notebook
(`examples/06-Finetuning/finetuning.ipynb`).

The notebook's own logic consists of four small operations:

* cell-7: the basin selector — compute the median of a metric (the code uses
  `"NSE"`; the metric name is a parameter of the embedding, `"1D"` stays a
  literal exactly as in the code) over all basins whose `"1D"` record has the
  metric present, collect the basins whose value is strictly below that
  median, and pick one with `np.random.choice`;
* cell-11: append `f"base_run_dir: {run_dir.absolute()}"` to `finetune.yml`
  (mode `"a"`) and write the selected basin to `finetune_basin.txt`
  (mode `"w"`);
* cell-21: extract `results[basin]["1D"]["NSE"]` from two results mappings.

Python dictionaries are modelled as association lists with distinct keys
(`dictGet?` is `d[k]` returning `Option`); a failed lookup is Python's
`KeyError`.  Numeric scores are modelled as exact rationals.  `np.median` of
an empty list yields NaN, modelled as `none`; every `<` comparison against
NaN is `False`, modelled by `ltNpMedian`.  `np.random.choice` on a non-empty
list is modelled by an injectable index `pick : Nat` reduced modulo the list
length; on an empty list it raises `ValueError` (modelled `emptyChoice`).
-/

/-- Decidable equality of `Except` values, used to evaluate the embedded
operations on concrete inputs. -/
instance exceptDecEq {ε α : Type} [DecidableEq ε] [DecidableEq α] :
    DecidableEq (Except ε α)
  | .error e, .error f =>
    if h : e = f then .isTrue (by rw [h]) else .isFalse (by simp [h])
  | .error _, .ok _ => .isFalse (by simp)
  | .ok _, .error _ => .isFalse (by simp)
  | .ok x, .ok y =>
    if h : x = y then .isTrue (by rw [h]) else .isFalse (by simp [h])

/-- Python dictionary lookup `d[k]` on an association list: the value at the
first matching key, `none` when the key is absent (Python raises `KeyError`). -/
def dictGet? {α : Type} : List (String × α) → String → Option α
  | [], _ => none
  | (k', v) :: rest, k => if k' = k then some v else dictGet? rest k

/-- Errors the notebook code can raise, plus the descriptive error the spec
prescribes for an empty qualifying set.  `keyError k` is Python's
`KeyError(k)`; `emptyChoice` is NumPy's `ValueError` raised by
`np.random.choice` on an empty sequence; `noQualifyingBasin` is the
descriptive "no qualifying basin" error the spec asks for — it is declared
only so that the spec's error-handling sentence can be stated and compared
against what the code actually raises. -/
inductive PyError where
  | keyError (key : String)
  | emptyChoice
  | noQualifyingBasin
  deriving DecidableEq, Repr

/-- Innermost level of a results mapping: metric name to numeric score. -/
abbrev MetricDict := List (String × ℚ)

/-- Per-basin record: temporal-resolution label (the code uses only `"1D"`)
to its metric dictionary. -/
abbrev BasinRecord := List (String × MetricDict)

/-- A (validation or test) results mapping: basin identifier to record. -/
abbrev ResultsDict := List (String × BasinRecord)

/-- Insert a value into an already sorted list of rationals. -/
def insertSorted (x : ℚ) : List ℚ → List ℚ
  | [] => [x]
  | y :: ys => if x ≤ y then x :: y :: ys else y :: insertSorted x ys

/-- Sort a list of rationals ascending (insertion sort). -/
def sortVals (xs : List ℚ) : List ℚ := xs.foldr insertSorted []

/-- The arithmetic mean `(a + b) / 2` of two rationals, written over the
numerator/denominator representation so that it evaluates by kernel
reduction; `ratMean_eq_add_div_two` proves it equal to `(a + b) / 2`. -/
def ratMean (a b : ℚ) : ℚ :=
  mkRat (a.num * b.den + b.num * a.den) (2 * (a.den * b.den))

/-- The semantics of `np.median` on a list of scores: sort, take the middle
element when the length is odd, the mean of the two middle elements when it
is even.  `np.median` of an empty list yields NaN, modelled as `none`. -/
def npMedian (xs : List ℚ) : Option ℚ :=
  let s := sortVals xs
  let n := s.length
  if n = 0 then none
  else if n % 2 = 1 then s.get? (n / 2)
  else
    match s.get? (n / 2 - 1), s.get? (n / 2) with
    | some a, some b => some (ratMean a b)
    | _, _ => none

/-- The comparison `x < median_nse` of cell-7, where the median may be NaN
(when no basin had the metric): any `<` comparison against NaN is `False`. -/
def ltNpMedian (x : ℚ) (median : Option ℚ) : Bool :=
  match median with
  | some m => decide (x < m)
  | none => false

/-- The list comprehension of cell-7,
`[v["1D"][metric] for v in validation_results.values() if metric in v["1D"].keys()]`:
`v["1D"]` is dereferenced unconditionally, so a record without `"1D"` raises
`KeyError("1D")`; records whose `"1D"` dictionary lacks the metric are
skipped. -/
def metricValues : ResultsDict → String → Except PyError (List ℚ)
  | [], _ => .ok []
  | (_, v) :: rest, metric =>
    match dictGet? v "1D" with
    | none => .error (.keyError "1D")
    | some r1 =>
      match dictGet? r1 metric with
      | none => metricValues rest metric
      | some x =>
        match metricValues rest metric with
        | .error e => .error e
        | .ok xs => .ok (x :: xs)

/-- The qualifying-basin loop of cell-7: for each `(k, v)` in the mapping,
append `k` when `metric in v["1D"].keys()` and `v["1D"][metric] < median`.
As in the comprehension, `v["1D"]` is dereferenced before the membership
guard, so a record without `"1D"` raises `KeyError("1D")`. -/
def qualifyingBasins : ResultsDict → String → Option ℚ → Except PyError (List String)
  | [], _, _ => .ok []
  | (k, v) :: rest, metric, median =>
    match dictGet? v "1D" with
    | none => .error (.keyError "1D")
    | some r1 =>
      match dictGet? r1 metric with
      | none => qualifyingBasins rest metric median
      | some x =>
        match qualifyingBasins rest metric median with
        | .error e => .error e
        | .ok bs => .ok (if ltNpMedian x median then k :: bs else bs)

/-- The basin selector of cell-7: median over the basins having the metric,
then `np.random.choice` on the list of basins strictly below that median.
The random draw is modelled by the injectable index `pick`, reduced modulo
the length of the qualifying list; `np.random.choice` on an empty list
raises `ValueError` (`emptyChoice`). -/
def selectBasin (validation_results : ResultsDict) (metric : String)
    (pick : Nat) : Except PyError String :=
  match metricValues validation_results metric with
  | .error e => .error e
  | .ok vals =>
    match qualifyingBasins validation_results metric (npMedian vals) with
    | .error e => .error e
    | .ok basins =>
      match basins with
      | [] => .error .emptyChoice
      | b :: bs => .ok ((b :: bs).get ⟨pick % (b :: bs).length, Nat.mod_lt _ (Nat.succ_pos _)⟩)

/-- The result comparison of cell-21:
`base_model_results[basin]["1D"][metric]` and
`finetuned_results[basin]["1D"][metric]`, evaluated in that order; the
first failing lookup raises `KeyError` on the missing key. -/
def compareResults (base_model_results finetuned_results : ResultsDict)
    (basin metric : String) : Except PyError (ℚ × ℚ) :=
  match dictGet? base_model_results basin with
  | none => .error (.keyError basin)
  | some r =>
    match dictGet? r "1D" with
    | none => .error (.keyError "1D")
    | some r1 =>
      match dictGet? r1 metric with
      | none => .error (.keyError metric)
      | some base_model_nse =>
        match dictGet? finetuned_results basin with
        | none => .error (.keyError basin)
        | some s =>
          match dictGet? s "1D" with
          | none => .error (.keyError "1D")
          | some s1 =>
            match dictGet? s1 metric with
            | none => .error (.keyError metric)
            | some finetune_nse => .ok (base_model_nse, finetune_nse)

/-- A snapshot of the files touched by the notebook, as a mapping from file
name to full text content. -/
structure FileState where
  files : List (String × String)

/-- Read the full content of a file, `none` when it does not exist. -/
def readFile? (fs : FileState) (name : String) : Option String :=
  dictGet? fs.files name

/-- The semantics of Python's `open(name, "w")` followed by `fp.write
content`: create or truncate the file and write exactly `content`. -/
def writeFile (fs : FileState) (name content : String) : FileState :=
  ⟨(name, content) :: fs.files.filter (fun p => p.1 ≠ name)⟩

/-- The semantics of Python's `open(name, "a")` followed by `fp.write
content`: append `content` to the existing content (creating the file when
absent). -/
def appendFile (fs : FileState) (name content : String) : FileState :=
  match readFile? fs name with
  | some old => writeFile fs name (old ++ content)
  | none => writeFile fs name content

/-- Cell-11's basin-list emission:
`open("finetune_basin.txt", "w"); fp.write(basin)`. -/
def emitBasinList (fs : FileState) (basin : String) : FileState :=
  writeFile fs "finetune_basin.txt" basin

/-- The text cell-11 appends to the config:
`f"base_run_dir: {run_dir.absolute()}"` — no leading and no trailing
newline. -/
def baseRunDirText (path : String) : String := "base_run_dir: " ++ path

/-- Cell-11's config augmentation at the level of document content:
`open("finetune.yml", "a"); fp.write(f"base_run_dir: {run_dir.absolute()}")`
appends the entry text to the existing content. -/
def augmentConfigText (content path : String) : String :=
  content ++ baseRunDirText path

/-- Cell-11's config augmentation as a file operation on `finetune.yml`. -/
def augmentFinetuneConfig (fs : FileState) (path : String) : FileState :=
  appendFile fs "finetune.yml" (baseRunDirText path)

/-- Split a character sequence into lines at `'\n'` (the final line has no
terminator; a trailing `'\n'` therefore produces a final empty line). -/
def splitLines : List Char → List (List Char)
  | [] => [[]]
  | c :: rest =>
    if c = '\n' then [] :: splitLines rest
    else
      match splitLines rest with
      | l :: ls => (c :: l) :: ls
      | [] => [[c]]

/-- Parse one `key: value` line of the key-value configuration document: the
key is everything before the first `':'`, which must be followed by a space;
the value is everything after that space.  Lines of any other shape carry no
key-value entry. -/
def parseLine : List Char → Option (List Char × List Char)
  | [] => none
  | ':' :: rest =>
    match rest with
    | ' ' :: v => some ([], v)
    | _ => none
  | c :: rest =>
    match parseLine rest with
    | some (k, v) => some (c :: k, v)
    | none => none

/-- Parse a configuration document into its list of `key: value` entries,
line by line. -/
def parseConfig (s : String) : List (List Char × List Char) :=
  (splitLines s.data).filterMap parseLine

/-- A basin record holding a single `"NSE"` score under `"1D"`. -/
def mkNseRecord (q : ℚ) : BasinRecord := [("1D", [("NSE", q)])]

/-- The four-basin mapping of the spec's end-to-end scenario
(`{"A": 0.5, "B": 0.6, "C": 0.7, "D": 0.8}`, written as reduced rationals). -/
def vrScenario : ResultsDict :=
  [("A", mkNseRecord (mkRat 5 10)), ("B", mkNseRecord (mkRat 6 10)),
   ("C", mkNseRecord (mkRat 7 10)), ("D", mkNseRecord (mkRat 8 10))]

/-- A mapping in which exactly one basin has the `"NSE"` metric. -/
def vrSingle : ResultsDict := [("A", mkNseRecord (mkRat 5 10))]

/-- A mapping whose only record lacks the `"1D"` key. -/
def vrNo1D : ResultsDict := [("A", [("2H", [("NSE", mkRat 1 2)])])]

/-- The base-model test-results mapping of the spec's comparison example:
`{"B1": {"1D": {"NSE": 0.602}}}`. -/
def resultsBase : ResultsDict := [("B1", mkNseRecord (mkRat 602 1000))]

/-- The finetuned test-results mapping of the spec's comparison example:
`{"B1": {"1D": {"NSE": 0.717}}}`. -/
def resultsFinetuned : ResultsDict := [("B1", mkNseRecord (mkRat 717 1000))]

/-- The executable mean used by `npMedian` agrees with `(a + b) / 2`. -/
theorem ratMean_eq_add_div_two (a b : ℚ) : ratMean a b = (a + b) / 2 := by
  have hda : ((a.den : ℚ)) ≠ 0 := Nat.cast_ne_zero.mpr a.den_nz
  have hdb : ((b.den : ℚ)) ≠ 0 := Nat.cast_ne_zero.mpr b.den_nz
  unfold ratMean
  rw [Rat.mkRat_eq_div]
  push_cast
  rw [div_eq_div_iff (mul_ne_zero two_ne_zero (mul_ne_zero hda hdb)) two_ne_zero]
  rw [(div_eq_iff hda).mp (Rat.num_div_den a), (div_eq_iff hdb).mp (Rat.num_div_den b)]
  ring

/-- On a dictionary with distinct keys, membership of a pair determines the
lookup result. -/
theorem dictGet?_eq_some_of_mem {α : Type} {items : List (String × α)}
    {b : String} {v : α} (hnd : (items.map Prod.fst).Nodup)
    (hmem : (b, v) ∈ items) : dictGet? items b = some v := by
  induction items with
  | nil => cases hmem
  | cons p rest ih =>
    obtain ⟨k, w⟩ := p
    rw [List.map_cons, List.nodup_cons] at hnd
    rcases List.mem_cons.mp hmem with h | h
    · rw [Prod.mk.injEq] at h
      obtain ⟨hk, hw⟩ := h
      subst hk; subst hw
      simp [dictGet?]
    · have hk : k ≠ b := by
        intro he
        apply hnd.1
        rw [he]
        exact List.mem_map.mpr ⟨(b, v), h, rfl⟩
      simpa [dictGet?, hk] using ih hnd.2 h

/-- Every basin the qualifying loop of cell-7 collects comes from the input
mapping, its record has the metric under `"1D"`, and its value compares
strictly below the median. -/
theorem qualifyingBasins_mem {metric : String} {med : Option ℚ} :
    ∀ (items : ResultsDict) (bs : List String) (b : String),
      qualifyingBasins items metric med = .ok bs → b ∈ bs →
      ∃ v r1 x, (b, v) ∈ items ∧ dictGet? v "1D" = some r1 ∧
        dictGet? r1 metric = some x ∧ ltNpMedian x med = true := by
  intro items
  induction items with
  | nil =>
    intro bs b hq hb
    simp only [qualifyingBasins, Except.ok.injEq] at hq
    subst hq
    cases hb
  | cons p rest ih =>
    intro bs b hq hb
    obtain ⟨k, v⟩ := p
    cases h1 : dictGet? v "1D" with
    | none => simp [qualifyingBasins, h1] at hq
    | some r1 =>
      cases h2 : dictGet? r1 metric with
      | none =>
        simp only [qualifyingBasins, h1, h2] at hq
        obtain ⟨w, r1', x, hmemw, hw1, hwx, hlt⟩ := ih bs b hq hb
        exact ⟨w, r1', x, List.mem_cons_of_mem _ hmemw, hw1, hwx, hlt⟩
      | some x =>
        cases h3 : qualifyingBasins rest metric med with
        | error e => simp [qualifyingBasins, h1, h2, h3] at hq
        | ok bs' =>
          simp only [qualifyingBasins, h1, h2, h3, Except.ok.injEq] at hq
          subst hq
          by_cases hlt : ltNpMedian x med = true
          · rw [if_pos hlt] at hb
            rcases List.mem_cons.mp hb with hbk | hbr
            · subst hbk
              exact ⟨v, r1, x, List.mem_cons_self _ _, h1, h2, hlt⟩
            · obtain ⟨w, r1', x', hmemw, hw1, hwx, hlt'⟩ := ih bs' b h3 hbr
              exact ⟨w, r1', x', List.mem_cons_of_mem _ hmemw, hw1, hwx, hlt'⟩
          · rw [if_neg hlt] at hb
            obtain ⟨w, r1', x', hmemw, hw1, hwx, hlt'⟩ := ih bs' b h3 hb
            exact ⟨w, r1', x', List.mem_cons_of_mem _ hmemw, hw1, hwx, hlt'⟩

/-- Every metric value reachable through a mapping entry is collected by the
comprehension of cell-7. -/
theorem metricValues_collects {metric : String} :
    ∀ (items : ResultsDict) (vs : List ℚ) (k : String) (v : BasinRecord)
      (r1 : MetricDict) (x : ℚ),
      metricValues items metric = .ok vs → (k, v) ∈ items →
      dictGet? v "1D" = some r1 → dictGet? r1 metric = some x → x ∈ vs := by
  intro items
  induction items with
  | nil =>
    intro vs k v r1 x _ hmem
    cases hmem
  | cons p rest ih =>
    intro vs k v r1 x hv hmem h1 h2
    obtain ⟨k0, v0⟩ := p
    cases g1 : dictGet? v0 "1D" with
    | none => simp [metricValues, g1] at hv
    | some s1 =>
      rcases List.mem_cons.mp hmem with h | h
      · rw [Prod.mk.injEq] at h
        obtain ⟨hk, hw⟩ := h
        subst hk; subst hw
        rw [g1, Option.some.injEq] at h1
        subst h1
        cases g2 : dictGet? s1 metric with
        | none => rw [g2] at h2; cases h2
        | some y =>
          rw [g2, Option.some.injEq] at h2
          subst h2
          cases g3 : metricValues rest metric with
          | error e => simp [metricValues, g1, g2, g3] at hv
          | ok xs =>
            simp only [metricValues, g1, g2, g3, Except.ok.injEq] at hv
            subst hv
            exact List.mem_cons_self _ _
      · cases g2 : dictGet? s1 metric with
        | none =>
          simp only [metricValues, g1, g2] at hv
          exact ih vs k v r1 x hv h h1 h2
        | some y =>
          cases g3 : metricValues rest metric with
          | error e => simp [metricValues, g1, g2, g3] at hv
          | ok xs =>
            simp only [metricValues, g1, g2, g3, Except.ok.injEq] at hv
            subst hv
            exact List.mem_cons_of_mem _ (ih xs k v r1 x g3 h h1 h2)

/-- When no collected metric value compares below the median, the qualifying
loop of cell-7 collects no basin. -/
theorem qualifyingBasins_nil_of_no_lt {metric : String} {med : Option ℚ} :
    ∀ (items : ResultsDict) (vs : List ℚ),
      metricValues items metric = .ok vs →
      (∀ x ∈ vs, ltNpMedian x med = false) →
      qualifyingBasins items metric med = .ok [] := by
  intro items
  induction items with
  | nil =>
    intro vs _ _
    simp [qualifyingBasins]
  | cons p rest ih =>
    intro vs hv hno
    obtain ⟨k, v⟩ := p
    cases g1 : dictGet? v "1D" with
    | none => simp [metricValues, g1] at hv
    | some r1 =>
      cases g2 : dictGet? r1 metric with
      | none =>
        simp only [metricValues, g1, g2] at hv
        simp only [qualifyingBasins, g1, g2]
        exact ih vs hv hno
      | some x =>
        cases g3 : metricValues rest metric with
        | error e => simp [metricValues, g1, g2, g3] at hv
        | ok xs =>
          simp only [metricValues, g1, g2, g3, Except.ok.injEq] at hv
          subst hv
          have hq := ih xs g3 (fun y hy => hno y (List.mem_cons_of_mem _ hy))
          simp [qualifyingBasins, g1, g2, hq, hno x (List.mem_cons_self _ _)]

/-- A mapping entry whose record lacks the `"1D"` key makes the
comprehension of cell-7 raise `KeyError("1D")`. -/
theorem metricValues_keyError {metric : String} :
    ∀ (items : ResultsDict) (k : String) (v : BasinRecord),
      (k, v) ∈ items → dictGet? v "1D" = none →
      metricValues items metric = .error (.keyError "1D") := by
  intro items
  induction items with
  | nil =>
    intro k v hmem _
    cases hmem
  | cons p rest ih =>
    intro k v hmem h1
    obtain ⟨k0, v0⟩ := p
    rcases List.mem_cons.mp hmem with h | h
    · rw [Prod.mk.injEq] at h
      obtain ⟨hk, hw⟩ := h
      subst hk; subst hw
      simp [metricValues, h1]
    · cases g1 : dictGet? v0 "1D" with
      | none => simp [metricValues, g1]
      | some r1 =>
        have hrest := ih k v h h1
        cases g2 : dictGet? r1 metric with
        | none =>
          simp only [metricValues, g1, g2]
          exact hrest
        | some x => simp [metricValues, g1, g2, hrest]

/-- When every record of the mapping has the `"1D"` key, the comprehension
of cell-7 succeeds. -/
theorem metricValues_isOk {metric : String} :
    ∀ (items : ResultsDict),
      (∀ p ∈ items, (dictGet? p.2 "1D").isSome) →
      ∃ vs, metricValues items metric = .ok vs := by
  intro items
  induction items with
  | nil =>
    intro _
    exact ⟨[], rfl⟩
  | cons p rest ih =>
    intro hall
    obtain ⟨k, v⟩ := p
    obtain ⟨r1, hr1⟩ :=
      Option.isSome_iff_exists.mp (hall (k, v) (List.mem_cons_self _ _))
    obtain ⟨vs, hvs⟩ := ih (fun q hq => hall q (List.mem_cons_of_mem _ hq))
    cases g2 : dictGet? r1 metric with
    | none =>
      refine ⟨vs, ?_⟩
      simp only [metricValues, hr1, g2]
      exact hvs
    | some x => exact ⟨x :: vs, by simp [metricValues, hr1, g2, hvs]⟩

/-- When every record of the mapping has the `"1D"` key, the qualifying
loop of cell-7 succeeds. -/
theorem qualifyingBasins_isOk {metric : String} {med : Option ℚ} :
    ∀ (items : ResultsDict),
      (∀ p ∈ items, (dictGet? p.2 "1D").isSome) →
      ∃ bs, qualifyingBasins items metric med = .ok bs := by
  intro items
  induction items with
  | nil =>
    intro _
    exact ⟨[], rfl⟩
  | cons p rest ih =>
    intro hall
    obtain ⟨k, v⟩ := p
    obtain ⟨r1, hr1⟩ :=
      Option.isSome_iff_exists.mp (hall (k, v) (List.mem_cons_self _ _))
    obtain ⟨bs, hbs⟩ := ih (fun q hq => hall q (List.mem_cons_of_mem _ hq))
    cases g2 : dictGet? r1 metric with
    | none =>
      refine ⟨bs, ?_⟩
      simp only [qualifyingBasins, hr1, g2]
      exact hbs
    | some x =>
      exact ⟨if ltNpMedian x med then k :: bs else bs,
        by simp [qualifyingBasins, hr1, g2, hbs]⟩

/-- The `np.median` of a one-element list is that element. -/
theorem npMedian_singleton (x : ℚ) : npMedian [x] = some x := by
  simp [npMedian, sortVals, insertSorted]

/-- Splitting a character sequence into lines never yields an empty list of
lines. -/
theorem splitLines_ne_nil : ∀ cs : List Char, splitLines cs ≠ [] := by
  intro cs
  induction cs with
  | nil => simp [splitLines]
  | cons c rest ih =>
    by_cases h : c = '\n'
    · simp [splitLines, h]
    · cases hs : splitLines rest with
      | nil => simp [splitLines, h, hs]
      | cons l ls => simp [splitLines, h, hs]

/-- A newline-free character sequence is a single line. -/
theorem splitLines_no_newline :
    ∀ zs : List Char, '\n' ∉ zs → splitLines zs = [zs] := by
  intro zs
  induction zs with
  | nil => intro _; rfl
  | cons c rest ih =>
    intro h
    have hc : ¬ c = '\n' := by
      intro he
      apply h
      rw [← he]
      exact List.mem_cons_self _ _
    have hr : '\n' ∉ rest := fun hm => h (List.mem_cons_of_mem _ hm)
    simp [splitLines, hc, ih hr]

/-- Splitting distributes over a newline separator. -/
theorem splitLines_append (ys : List Char) :
    ∀ xs : List Char,
      splitLines (xs ++ '\n' :: ys) = splitLines xs ++ splitLines ys := by
  intro xs
  induction xs with
  | nil => simp [splitLines]
  | cons c rest ih =>
    by_cases h : c = '\n'
    · simp [splitLines, h, ih]
    · cases hs : splitLines rest with
      | nil => exact absurd hs (splitLines_ne_nil rest)
      | cons l ls => simp [splitLines, h, ih, hs]

/-- The line appended by cell-11 parses to the `base_run_dir` key and the
verbatim remainder of the line as value, whatever that remainder is. -/
theorem parseLine_baseRunDir (p : List Char) :
    parseLine ("base_run_dir: ".data ++ p) = some ("base_run_dir".data, p) := rfl

/-- Parsing a document extended (without separator) by one newline-free
line: when the pre-existing content is empty or newline-terminated, the
appended text forms one additional line whose parse is appended to the
document's parse. -/
theorem parseConfig_append_line (content : String) (line cs : List Char)
    (hc : content.data = [] ∨ content.data = cs ++ ['\n'])
    (hl : '\n' ∉ line) :
    (splitLines (content.data ++ line)).filterMap parseLine
      = parseConfig content ++ (parseLine line).toList := by
  rcases hc with hc | hc
  · rw [hc, List.nil_append, splitLines_no_newline line hl]
    simp only [parseConfig, hc]
    cases hp : parseLine line <;>
      simp [splitLines, parseLine, List.filterMap, hp]
  · rw [hc, List.append_assoc, show ['\n'] ++ line = '\n' :: line from rfl,
      splitLines_append line cs, splitLines_no_newline line hl,
      List.filterMap_append]
    have h1 : parseConfig content = List.filterMap parseLine (splitLines cs) := by
      simp only [parseConfig, hc,
        show cs ++ ['\n'] = cs ++ '\n' :: ([] : List Char) from rfl,
        splitLines_append [] cs, List.filterMap_append]
      simp [splitLines, parseLine, List.filterMap]
    have h2 : List.filterMap parseLine [line] = (parseLine line).toList := by
      cases hp : parseLine line <;> simp [List.filterMap, hp]
    rw [h1, h2]

/-- C1: Basin selector correctness — for every validation-results mapping
(with distinct basin keys), every target metric and every draw of the random
source, if the selector of cell-7 returns a basin, then that basin's stored
metric value under `"1D"` is strictly less than the median computed over all
basins having the metric present; it never returns a basin whose value is
greater than or equal to that median. -/
theorem C1_selector_below_median
    (validation_results : ResultsDict) (metric : String) (pick : Nat)
    (b : String) (hnd : (validation_results.map Prod.fst).Nodup)
    (h : selectBasin validation_results metric pick = .ok b) :
    ∃ vals med r r1 x,
      metricValues validation_results metric = .ok vals ∧
      npMedian vals = some med ∧
      dictGet? validation_results b = some r ∧
      dictGet? r "1D" = some r1 ∧
      dictGet? r1 metric = some x ∧
      x < med := by
  cases hv : metricValues validation_results metric with
  | error e => simp [selectBasin, hv] at h
  | ok vals =>
    cases hq : qualifyingBasins validation_results metric (npMedian vals) with
    | error e => simp [selectBasin, hv, hq] at h
    | ok basins =>
      cases basins with
      | nil => simp [selectBasin, hv, hq] at h
      | cons b0 bs =>
        simp only [selectBasin, hv, hq, Except.ok.injEq] at h
        obtain ⟨v, r1, x, hmem, h1, h2, hlt⟩ :=
          qualifyingBasins_mem validation_results (b0 :: bs) b hq
            (h ▸ List.get_mem _ _ _)
        cases hmed : npMedian vals with
        | none =>
          rw [hmed] at hlt
          simp [ltNpMedian] at hlt
        | some med =>
          rw [hmed] at hlt
          simp only [ltNpMedian, decide_eq_true_eq] at hlt
          exact ⟨vals, med, v, r1, x, rfl, hmed,
            dictGet?_eq_some_of_mem hnd hmem, h1, h2, hlt⟩

/-- Witness for C1: at the end-to-end scenario mapping with draw 0 the
selector returns basin "A", and the conclusion holds there. -/
theorem C1_selector_below_median_witness :
    ∃ vals med r r1 x,
      metricValues vrScenario "NSE" = .ok vals ∧
      npMedian vals = some med ∧
      dictGet? vrScenario "A" = some r ∧
      dictGet? r "1D" = some r1 ∧
      dictGet? r1 "NSE" = some x ∧
      x < med :=
  C1_selector_below_median vrScenario "NSE" 0 "A" (by decide) (by decide)

/-- C2 counterexample: on the one-basin mapping — where no basin can be
strictly below a median equal to its own value — the selector of cell-7
fails with NumPy's sampling error (its `ValueError` on an empty choice
list), not with the descriptive "no qualifying basin" error the claim
states. -/
theorem C2_counterexample :
    selectBasin vrSingle "NSE" 0 = .error .emptyChoice ∧
    selectBasin vrSingle "NSE" 0 ≠ .error .noQualifyingBasin := by decide

/-- C2 (amended): whenever no basin qualifies, the selector fails — by
propagating the sampling error of `np.random.choice` on an empty list, not
with a descriptive "no qualifying basin" error — and never returns a value;
in particular a mapping in which exactly one basin carries the metric always
has an empty qualifying set. -/
theorem C2_empty_qualifying_fails
    (validation_results : ResultsDict) (metric : String) (pick : Nat) :
    (∀ vals, metricValues validation_results metric = .ok vals →
      qualifyingBasins validation_results metric (npMedian vals) = .ok [] →
      selectBasin validation_results metric pick = .error .emptyChoice) ∧
    (∀ x, metricValues validation_results metric = .ok [x] →
      qualifyingBasins validation_results metric (npMedian [x]) = .ok []) := by
  constructor
  · intro vals hv hq
    simp [selectBasin, hv, hq]
  · intro x hv
    apply qualifyingBasins_nil_of_no_lt validation_results [x] hv
    intro y hy
    rw [List.mem_singleton] at hy
    subst hy
    rw [npMedian_singleton]
    simp [ltNpMedian]

/-- Witness for C2 (amended) at the one-basin mapping. -/
theorem C2_empty_qualifying_fails_witness :
    selectBasin vrSingle "NSE" 0 = .error .emptyChoice ∧
    qualifyingBasins vrSingle "NSE" (npMedian [mkRat 5 10]) = .ok [] :=
  ⟨(C2_empty_qualifying_fails vrSingle "NSE" 0).1 [mkRat 5 10]
      (by decide) (by decide),
   (C2_empty_qualifying_fails vrSingle "NSE" 0).2 (mkRat 5 10) (by decide)⟩

/-- C9: the selector dereferences `"1D"` before checking metric presence:
it fails with `KeyError("1D")` on any mapping containing a record without
the `"1D"` key, and it never raises that error when every record has it. -/
theorem C9_selector_requires_1d
    (validation_results : ResultsDict) (metric : String) (pick : Nat) :
    ((∃ p ∈ validation_results, dictGet? p.2 "1D" = none) →
      selectBasin validation_results metric pick = .error (.keyError "1D")) ∧
    ((∀ p ∈ validation_results, (dictGet? p.2 "1D").isSome) →
      selectBasin validation_results metric pick ≠ .error (.keyError "1D")) := by
  constructor
  · rintro ⟨⟨k, v⟩, hmem, h1⟩
    have hv := @metricValues_keyError metric validation_results k v hmem h1
    simp [selectBasin, hv]
  · intro hall
    obtain ⟨vs, hvs⟩ := @metricValues_isOk metric validation_results hall
    obtain ⟨bs, hbs⟩ :=
      @qualifyingBasins_isOk metric (npMedian vs) validation_results hall
    cases bs with
    | nil => simp [selectBasin, hvs, hbs]
    | cons b0 bs' => simp [selectBasin, hvs, hbs]

/-- Witness for C9: a record without `"1D"` triggers `KeyError("1D")`; the
scenario mapping, whose records all have `"1D"`, never does. -/
theorem C9_selector_requires_1d_witness :
    selectBasin vrNo1D "NSE" 0 = .error (.keyError "1D") ∧
    selectBasin vrScenario "NSE" 0 ≠ .error (.keyError "1D") :=
  ⟨(C9_selector_requires_1d vrNo1D "NSE" 0).1 (by decide),
   (C9_selector_requires_1d vrScenario "NSE" 0).2 (by decide)⟩

/-- C10: whenever the qualifying set is non-empty, the selector succeeds
and the returned basin is a key of the input mapping whose record contains
the metric under `"1D"`; the notebook's immediately following lookup
`validation_results[basin]["1D"][metric]` therefore succeeds. -/
theorem C10_selector_output_invariant
    (validation_results : ResultsDict) (metric : String) (pick : Nat)
    (vals : List ℚ) (qs : List String)
    (hnd : (validation_results.map Prod.fst).Nodup)
    (hv : metricValues validation_results metric = .ok vals)
    (hq : qualifyingBasins validation_results metric (npMedian vals) = .ok qs)
    (hne : qs ≠ []) :
    ∃ b r r1 x,
      selectBasin validation_results metric pick = .ok b ∧
      dictGet? validation_results b = some r ∧
      dictGet? r "1D" = some r1 ∧
      dictGet? r1 metric = some x := by
  cases qs with
  | nil => exact absurd rfl hne
  | cons b0 bs =>
    have hsel : selectBasin validation_results metric pick
        = .ok ((b0 :: bs).get
            ⟨pick % (b0 :: bs).length, Nat.mod_lt _ (Nat.succ_pos _)⟩) := by
      simp [selectBasin, hv, hq]
    obtain ⟨v, r1, x, hmem, h1, h2, _⟩ :=
      qualifyingBasins_mem validation_results (b0 :: bs)
        ((b0 :: bs).get ⟨pick % (b0 :: bs).length, Nat.mod_lt _ (Nat.succ_pos _)⟩)
        hq (List.get_mem _ _ _)
    exact ⟨_, v, r1, x, hsel, dictGet?_eq_some_of_mem hnd hmem, h1, h2⟩

/-- C8: end-to-end selector scenario — on the mapping
`{"A": 0.5, "B": 0.6, "C": 0.7, "D": 0.8}` the collected values are the four
scores, their median is 0.65, the qualifying set is exactly `["A", "B"]`,
and for every draw of the random source the selector returns `"A"` or `"B"`
(each one reached, uniformly as the draw index alternates) and never `"C"`
or `"D"`. -/
theorem C8_end_to_end_scenario :
    metricValues vrScenario "NSE"
      = .ok [mkRat 5 10, mkRat 6 10, mkRat 7 10, mkRat 8 10] ∧
    npMedian [mkRat 5 10, mkRat 6 10, mkRat 7 10, mkRat 8 10]
      = some (mkRat 65 100) ∧
    qualifyingBasins vrScenario "NSE" (some (mkRat 65 100)) = .ok ["A", "B"] ∧
    (∀ pick, selectBasin vrScenario "NSE" pick
      = .ok (if pick % 2 = 0 then "A" else "B")) ∧
    selectBasin vrScenario "NSE" 0 = .ok "A" ∧
    selectBasin vrScenario "NSE" 1 = .ok "B" ∧
    (∀ pick, selectBasin vrScenario "NSE" pick ≠ .ok "C" ∧
      selectBasin vrScenario "NSE" pick ≠ .ok "D") := by
  have h1 : metricValues vrScenario "NSE"
      = .ok [mkRat 5 10, mkRat 6 10, mkRat 7 10, mkRat 8 10] := by decide
  have h2 : qualifyingBasins vrScenario "NSE"
      (npMedian [mkRat 5 10, mkRat 6 10, mkRat 7 10, mkRat 8 10])
      = .ok ["A", "B"] := by decide
  have key : ∀ pick : Nat, selectBasin vrScenario "NSE" pick
      = .ok (if pick % 2 = 0 then "A" else "B") := by
    intro pick
    simp only [selectBasin, h1, h2]
    rcases Nat.mod_two_eq_zero_or_one pick with h | h
    · simp [h]
    · simp [h]
  refine ⟨by decide, by decide, by decide, key, by decide, by decide, ?_⟩
  intro pick
  rcases Nat.mod_two_eq_zero_or_one pick with h | h
  · rw [key pick, if_pos h]
    exact ⟨by decide, by decide⟩
  · rw [key pick, if_neg (by omega)]
    exact ⟨by decide, by decide⟩

/-- Witness for C10 at the end-to-end scenario mapping with draw 1. -/
theorem C10_selector_output_invariant_witness :
    ∃ b r r1 x,
      selectBasin vrScenario "NSE" 1 = .ok b ∧
      dictGet? vrScenario b = some r ∧
      dictGet? r "1D" = some r1 ∧
      dictGet? r1 "NSE" = some x :=
  C10_selector_output_invariant vrScenario "NSE" 1
    [mkRat 5 10, mkRat 6 10, mkRat 7 10, mkRat 8 10] ["A", "B"]
    (by decide) (by decide) (by decide) (by decide)

/-- C6: result comparison correctness — when the basin and the metric are
present in both mappings under the fixed `"1D"` key, cell-21 extracts and
reports exactly the two stored values. -/
theorem C6_compare_extracts
    (base_model_results finetuned_results : ResultsDict)
    (basin metric : String) (a a1x : _) (x : ℚ) (b b1x : _) (y : ℚ)
    (ha : dictGet? base_model_results basin = some a)
    (ha1 : dictGet? a "1D" = some a1x)
    (hx : dictGet? a1x metric = some x)
    (hb : dictGet? finetuned_results basin = some b)
    (hb1 : dictGet? b "1D" = some b1x)
    (hy : dictGet? b1x metric = some y) :
    compareResults base_model_results finetuned_results basin metric
      = .ok (x, y) := by
  simp [compareResults, ha, ha1, hx, hb, hb1, hy]

/-- Witness for C6 at the spec's comparison example: basin "B1", metric
"NSE", values 0.602 and 0.717. -/
theorem C6_compare_extracts_witness :
    compareResults resultsBase resultsFinetuned "B1" "NSE"
      = .ok (mkRat 602 1000, mkRat 717 1000) :=
  C6_compare_extracts resultsBase resultsFinetuned "B1" "NSE"
    (mkNseRecord (mkRat 602 1000)) [("NSE", mkRat 602 1000)] (mkRat 602 1000)
    (mkNseRecord (mkRat 717 1000)) [("NSE", mkRat 717 1000)] (mkRat 717 1000)
    (by decide) (by decide) (by decide) (by decide) (by decide) (by decide)

/-- C7 counterexample: the lookup error raised by cell-21 does not identify
which mapping lacked the key — a basin absent from the first mapping and a
basin absent from the second produce the very same `KeyError("B1")`. -/
theorem C7_counterexample :
    compareResults ([] : ResultsDict) resultsFinetuned "B1" "NSE"
      = .error (.keyError "B1") ∧
    compareResults resultsBase ([] : ResultsDict) "B1" "NSE"
      = .error (.keyError "B1") := by decide

/-- C7 (amended): a missing basin or metric key surfaces as a `KeyError`
naming the first absent key in evaluation order — one of the basin, `"1D"`,
or the metric — and is never silently defaulted: whenever the comparison
returns a pair, all six lookups succeeded and the pair is exactly the two
stored values; the error does not say which of the two mappings lacked the
key. -/
theorem C7_compare_missing_key_error
    (base_model_results finetuned_results : ResultsDict)
    (basin metric : String) :
    (∀ x y, compareResults base_model_results finetuned_results basin metric
        = .ok (x, y) →
      ∃ a a1x b b1x, dictGet? base_model_results basin = some a ∧
        dictGet? a "1D" = some a1x ∧ dictGet? a1x metric = some x ∧
        dictGet? finetuned_results basin = some b ∧
        dictGet? b "1D" = some b1x ∧ dictGet? b1x metric = some y) ∧
    ((compareResults base_model_results finetuned_results basin metric).isOk
        = false →
      ∃ k, compareResults base_model_results finetuned_results basin metric
          = .error (.keyError k) ∧
        (k = basin ∨ k = "1D" ∨ k = metric)) := by
  cases ha : dictGet? base_model_results basin with
  | none =>
    exact ⟨fun x y h => by simp [compareResults, ha] at h,
      fun _ => ⟨basin, by simp [compareResults, ha], Or.inl rfl⟩⟩
  | some a =>
    cases ha1 : dictGet? a "1D" with
    | none =>
      exact ⟨fun x y h => by simp [compareResults, ha, ha1] at h,
        fun _ => ⟨"1D", by simp [compareResults, ha, ha1], Or.inr (Or.inl rfl)⟩⟩
    | some a1x =>
      cases hx : dictGet? a1x metric with
      | none =>
        exact ⟨fun x y h => by simp [compareResults, ha, ha1, hx] at h,
          fun _ => ⟨metric, by simp [compareResults, ha, ha1, hx],
            Or.inr (Or.inr rfl)⟩⟩
      | some x0 =>
        cases hb : dictGet? finetuned_results basin with
        | none =>
          exact ⟨fun x y h => by simp [compareResults, ha, ha1, hx, hb] at h,
            fun _ => ⟨basin, by simp [compareResults, ha, ha1, hx, hb],
              Or.inl rfl⟩⟩
        | some b =>
          cases hb1 : dictGet? b "1D" with
          | none =>
            exact ⟨fun x y h => by
                simp [compareResults, ha, ha1, hx, hb, hb1] at h,
              fun _ => ⟨"1D", by simp [compareResults, ha, ha1, hx, hb, hb1],
                Or.inr (Or.inl rfl)⟩⟩
          | some b1x =>
            cases hy : dictGet? b1x metric with
            | none =>
              exact ⟨fun x y h => by
                  simp [compareResults, ha, ha1, hx, hb, hb1, hy] at h,
                fun _ => ⟨metric,
                  by simp [compareResults, ha, ha1, hx, hb, hb1, hy],
                  Or.inr (Or.inr rfl)⟩⟩
            | some y0 =>
              constructor
              · intro x y h
                simp only [compareResults, ha, ha1, hx, hb, hb1, hy,
                  Except.ok.injEq, Prod.mk.injEq] at h
                obtain ⟨hx0, hy0⟩ := h
                subst hx0; subst hy0
                exact ⟨a, a1x, b, b1x, rfl, ha1, hx, rfl, hb1, hy⟩
              · intro hfail
                simp [compareResults, ha, ha1, hx, hb, hb1, hy,
                  Except.isOk, Except.toBool] at hfail

/-- Witness for C7 (amended): both conjuncts applied at concrete inputs —
the successful comparison of the spec's example, and the failing comparison
against an empty second mapping. -/
theorem C7_compare_missing_key_error_witness :
    (∃ a a1x b b1x, dictGet? resultsBase "B1" = some a ∧
      dictGet? a "1D" = some a1x ∧
      dictGet? a1x "NSE" = some (mkRat 602 1000) ∧
      dictGet? resultsFinetuned "B1" = some b ∧
      dictGet? b "1D" = some b1x ∧
      dictGet? b1x "NSE" = some (mkRat 717 1000)) ∧
    (∃ k, compareResults resultsBase ([] : ResultsDict) "B1" "NSE"
        = .error (.keyError k) ∧
      (k = "B1" ∨ k = "1D" ∨ k = "NSE")) :=
  ⟨(C7_compare_missing_key_error resultsBase resultsFinetuned "B1" "NSE").1
      (mkRat 602 1000) (mkRat 717 1000) (by decide),
   (C7_compare_missing_key_error resultsBase ([] : ResultsDict) "B1" "NSE").2
      (by decide)⟩

/-- C3 counterexample: on a pre-existing document that does not end with a
newline, cell-11's append glues the new text onto the last line — the
pre-existing key `lr` changes value and no exact `base_run_dir` entry
appears, refuting the claim for that document. -/
theorem C3_counterexample :
    parseConfig "lr: 0.001" = [("lr".data, "0.001".data)] ∧
    parseConfig (augmentConfigText "lr: 0.001" "/runs/base")
      = [("lr".data, "0.001base_run_dir: /runs/base".data)] ∧
    parseConfig (augmentConfigText "lr: 0.001" "/runs/base")
      ≠ parseConfig "lr: 0.001"
        ++ [("base_run_dir".data, "/runs/base".data)] := by decide

/-- C3 (amended): config augmentation is append-only provided the
pre-existing document is empty or ends with a newline and the path contains
no newline: the augmented file holds the old content with the entry text
appended, every pre-existing key-value entry is unchanged, and the one new
entry maps `base_run_dir` to the exact path string. -/
theorem C3_config_append_only
    (fs : FileState) (content path : String) (cs : List Char)
    (hread : readFile? fs "finetune.yml" = some content)
    (hc : content.data = [] ∨ content.data = cs ++ ['\n'])
    (hp : '\n' ∉ path.data) :
    readFile? (augmentFinetuneConfig fs path) "finetune.yml"
      = some (augmentConfigText content path) ∧
    parseConfig (augmentConfigText content path)
      = parseConfig content ++ [("base_run_dir".data, path.data)] := by
  constructor
  · have hread' : dictGet? fs.files "finetune.yml" = some content := hread
    simp [augmentFinetuneConfig, appendFile, hread', augmentConfigText,
      readFile?, writeFile, dictGet?]
  · have hdata : (augmentConfigText content path).data
        = content.data ++ ("base_run_dir: ".data ++ path.data) := by
      simp [augmentConfigText, baseRunDirText]
    have hl : '\n' ∉ ("base_run_dir: ".data ++ path.data) := by
      intro hm
      rcases List.mem_append.mp hm with hm | hm
      · exact absurd hm (by decide)
      · exact hp hm
    rw [show parseConfig (augmentConfigText content path)
        = (splitLines (augmentConfigText content path).data).filterMap parseLine
      from rfl]
    rw [hdata, parseConfig_append_line content _ cs hc hl, parseLine_baseRunDir]
    rfl

/-- Witness for C3 (amended) on a one-entry newline-terminated document. -/
theorem C3_config_append_only_witness :
    readFile?
      (augmentFinetuneConfig ⟨[("finetune.yml", "epochs: 10\n")]⟩ "/runs/base")
      "finetune.yml" = some (augmentConfigText "epochs: 10\n" "/runs/base") ∧
    parseConfig (augmentConfigText "epochs: 10\n" "/runs/base")
      = parseConfig "epochs: 10\n"
        ++ [("base_run_dir".data, "/runs/base".data)] :=
  C3_config_append_only ⟨[("finetune.yml", "epochs: 10\n")]⟩ "epochs: 10\n"
    "/runs/base" ("epochs: 10".data) (by decide) (Or.inr (by decide)) (by decide)

/-- C4 counterexample: augmenting twice does not append two separate
`base_run_dir` key-value lines — because the first append leaves no trailing
newline, the second glues onto it and the document parses to a single
`base_run_dir` entry holding the merged text. -/
theorem C4_counterexample :
    parseConfig
      (augmentConfigText (augmentConfigText "lr: 0.001\n" "/run1") "/run2")
      = [("lr".data, "0.001".data),
         ("base_run_dir".data, "/run1base_run_dir: /run2".data)] ∧
    parseConfig
      (augmentConfigText (augmentConfigText "lr: 0.001\n" "/run1") "/run2")
      ≠ [("lr".data, "0.001".data), ("base_run_dir".data, "/run1".data),
         ("base_run_dir".data, "/run2".data)] := by decide

/-- C4 (amended): calling the augmentation twice appends both texts but —
since the first append writes no trailing newline — they merge into one
line: the document gains exactly one `base_run_dir` entry whose value is the
first path followed by the literal text `base_run_dir: ` and the second
path; the script does not deduplicate, and no two separate key-value lines
arise for a last-wins merge to pick from. -/
theorem C4_config_append_twice
    (content p1 p2 : String) (cs : List Char)
    (hc : content.data = [] ∨ content.data = cs ++ ['\n'])
    (h1 : '\n' ∉ p1.data) (h2 : '\n' ∉ p2.data) :
    parseConfig (augmentConfigText (augmentConfigText content p1) p2)
      = parseConfig content
        ++ [("base_run_dir".data,
             p1.data ++ "base_run_dir: ".data ++ p2.data)] := by
  have hdata : (augmentConfigText (augmentConfigText content p1) p2).data
      = content.data ++ ("base_run_dir: ".data
          ++ (p1.data ++ ("base_run_dir: ".data ++ p2.data))) := by
    simp [augmentConfigText, baseRunDirText]
  have hl : '\n' ∉ ("base_run_dir: ".data
      ++ (p1.data ++ ("base_run_dir: ".data ++ p2.data))) := by
    intro hm
    rcases List.mem_append.mp hm with hm | hm
    · exact absurd hm (by decide)
    · rcases List.mem_append.mp hm with hm | hm
      · exact h1 hm
      · rcases List.mem_append.mp hm with hm | hm
        · exact absurd hm (by decide)
        · exact h2 hm
  rw [show parseConfig (augmentConfigText (augmentConfigText content p1) p2)
      = (splitLines
          (augmentConfigText (augmentConfigText content p1) p2).data).filterMap
        parseLine
    from rfl]
  rw [hdata, parseConfig_append_line content _ cs hc hl, parseLine_baseRunDir]
  simp [List.append_assoc]

/-- Witness for C4 (amended) on a one-entry newline-terminated document. -/
theorem C4_config_append_twice_witness :
    parseConfig
      (augmentConfigText (augmentConfigText "lr: 0.001\n" "/run1") "/run2")
      = parseConfig "lr: 0.001\n"
        ++ [("base_run_dir".data,
             "/run1".data ++ "base_run_dir: ".data ++ "/run2".data)] :=
  C4_config_append_twice "lr: 0.001\n" "/run1" "/run2" ("lr: 0.001".data)
    (Or.inr (by decide)) (by decide) (by decide)

/-- C5: single-basin file emission — cell-11's write truncates any existing
file at the path and leaves exactly the identifier string as the entire
content (no header, no trailing content, no implicit newline); in particular
writing basin "04122200" over a pre-existing file yields content
"04122200". -/
theorem C5_basin_file_exact :
    (∀ (fs : FileState) (basin : String),
      readFile? (emitBasinList fs basin) "finetune_basin.txt" = some basin) ∧
    readFile?
      (emitBasinList ⟨[("finetune_basin.txt", "a previous list")]⟩ "04122200")
      "finetune_basin.txt" = some "04122200" := by
  constructor
  · intro fs basin
    simp [emitBasinList, readFile?, writeFile, dictGet?]
  · decide
